import Mathlib

/-!
Verification of the evaluation-pipeline design of this repository.

The repository consists of two notebooks (`AIMon.ipynb` and
`Langfuse-Instrumentation.ipynb`) whose recurring structure the specification
describes as a generic retrieve-generate-evaluate pipeline harness
(DocumentStore, Retriever, ResponseGenerator, Evaluator variants,
EvaluationPipeline).  The harness itself is not source code of the notebooks —
they call external libraries — so its operations are modelled here from the
specification, while the notebook-authored code (`extract_and_create_documents`
and the in-place `llm.system_prompt` update) is embedded directly.

Embeddings and scores are modelled with exact rationals; external providers
(embedding, generation, scoring services) are function parameters, so stub
providers are ordinary concrete functions.
-/

namespace Spec2Proof

/-- A stored text unit (spec §3 `Unit`): stable id, raw text, embedding vector. -/
structure StoreUnit where
  id : Nat
  text : String
  embedding : List ℚ
deriving DecidableEq

/-- Modelled from the spec: the in-memory append-only `DocumentStore` (§4.1);
absent from src/, where the notebooks delegate storage to an external
`VectorStoreIndex`.  `nextId` is the id the next ingested unit receives. -/
structure DocumentStore where
  units : List StoreUnit
  nextId : Nat
deriving DecidableEq

/-- `EmbeddingFailure` causes (§4.1): provider error, or a vector of the wrong
dimension. -/
inductive EmbedErr
  | providerError
  | dimensionMismatch
deriving DecidableEq

/-- Modelled from the spec: `ingest` (§4.1) assigns a stable id, computes the
embedding via the external provider, fails with `EmbeddingFailure` if the
provider errors or returns a mismatched vector dimension, and appends the new
unit to the store. -/
def DocumentStore.ingest (s : DocumentStore) (embed : String → Option (List ℚ))
    (dim : Nat) (text : String) : Except EmbedErr (StoreUnit × DocumentStore) :=
  match embed text with
  | none => .error .providerError
  | some v =>
    if v.length = dim then
      .ok (⟨s.nextId, text, v⟩, ⟨s.units ++ [⟨s.nextId, text, v⟩], s.nextId + 1⟩)
    else .error .dimensionMismatch

/-- A query (spec §3): text plus its embedding. -/
structure Query where
  text : String
  embedding : List ℚ
deriving DecidableEq

/-- One retrieval hit: the stored unit, its similarity score, and its insertion
position in the store (the position carries the insertion order used for
tie-breaking). -/
structure Scored where
  unit : StoreUnit
  score : ℚ
  pos : Nat
deriving DecidableEq

/-- Retrieval ordering (§4.2): higher score first; on equal scores the
earlier-ingested unit (smaller insertion position) comes first. -/
def retrievePrecedes (a b : Scored) : Prop :=
  b.score < a.score ∨ (a.score = b.score ∧ a.pos ≤ b.pos)

instance : DecidableRel retrievePrecedes := fun a b => by
  unfold retrievePrecedes; infer_instance

instance : IsTotal Scored retrievePrecedes := by
  constructor
  intro a b
  rcases lt_trichotomy a.score b.score with h | h | h
  · exact Or.inr (Or.inl h)
  · rcases Nat.le_total a.pos b.pos with hp | hp
    · exact Or.inl (Or.inr ⟨h, hp⟩)
    · exact Or.inr (Or.inr ⟨h.symm, hp⟩)
  · exact Or.inl (Or.inl h)

instance : IsTrans Scored retrievePrecedes := by
  constructor
  intro a b c hab hbc
  rcases hab with hab | ⟨hab, hpab⟩
  · rcases hbc with hbc | ⟨hbc, _⟩
    · exact Or.inl (lt_trans hbc hab)
    · exact Or.inl (hbc ▸ hab)
  · rcases hbc with hbc | ⟨hbc, hpbc⟩
    · exact Or.inl (hab ▸ hbc)
    · exact Or.inr ⟨hab.trans hbc, hpab.trans hpbc⟩

/-- Retrieval failure (§4.2): the store has zero units. -/
inductive RetrieveErr
  | emptyStore
deriving DecidableEq

/-- Score every stored unit against the query, tagging each with its insertion
position. -/
def scoredUnits (sim : List ℚ → List ℚ → ℚ) (q : Query) (s : DocumentStore) :
    List Scored :=
  s.units.enum.map (fun p => ⟨p.2, sim q.embedding p.2.embedding, p.1⟩)

/-- Modelled from the spec: `retrieve` (§4.2); absent from src/, where the
notebooks delegate it to the external `build_retriever`.  Computes the
similarity between the query embedding and every stored unit, returns the
top-`k` sorted descending with ties broken by insertion order, and fails with
`EmptyStoreError` on a store with zero units. -/
def DocumentStore.retrieve (s : DocumentStore) (sim : List ℚ → List ℚ → ℚ)
    (q : Query) (k : Nat) : Except RetrieveErr (List Scored) :=
  if s.units = [] then .error .emptyStore
  else .ok ((List.insertionSort retrievePrecedes (scoredUnits sim q s)).take k)

/-- Store well-formedness: unit ids are distinct and below `nextId`.  Holds for
the empty store and is preserved by `ingest` (the store is append-only and
single-writer, §5). -/
def DocumentStore.WF (s : DocumentStore) : Prop :=
  (s.units.map StoreUnit.id).Nodup ∧ ∀ u ∈ s.units, u.id < s.nextId

lemma emptyStore_WF : (⟨[], 0⟩ : DocumentStore).WF := by
  constructor
  · simp
  · intro u hu
    simp at hu

lemma ingest_preserves_WF (s : DocumentStore) (embed : String → Option (List ℚ))
    (dim : Nat) (text : String) (u : StoreUnit) (s2 : DocumentStore)
    (hwf : s.WF) (h : s.ingest embed dim text = .ok (u, s2)) : s2.WF := by
  unfold DocumentStore.ingest at h
  split at h
  · exact Except.noConfusion h
  · split at h
    · injection h with h2
      obtain ⟨hu, hs2⟩ := Prod.mk.inj h2
      subst hs2
      constructor
      · simp only [List.map_append, List.map_cons, List.map_nil]
        rw [List.nodup_append]
        refine ⟨hwf.1, List.nodup_singleton _, ?_⟩
        intro a ha hb
        simp only [List.mem_singleton] at hb
        subst hb
        obtain ⟨w, hw, hwid⟩ := List.mem_map.1 ha
        exact absurd (hwid ▸ hwf.2 w hw) (lt_irrefl _)
      · intro w hw
        rcases List.mem_append.1 hw with hw | hw
        · exact Nat.lt_succ_of_lt (hwf.2 w hw)
        · simp only [List.mem_singleton] at hw
          subst hw
          exact Nat.lt_succ_self _
    · exact Except.noConfusion h

lemma scoredUnits_map_pos (sim : List ℚ → List ℚ → ℚ) (q : Query)
    (s : DocumentStore) :
    (scoredUnits sim q s).map Scored.pos = List.range s.units.length := by
  unfold scoredUnits
  rw [List.map_map]
  exact List.enum_map_fst s.units

lemma scoredUnits_map_id (sim : List ℚ → List ℚ → ℚ) (q : Query)
    (s : DocumentStore) :
    (scoredUnits sim q s).map (fun x => x.unit.id) = s.units.map StoreUnit.id := by
  unfold scoredUnits
  rw [List.map_map]
  have : ((fun x : Scored => x.unit.id) ∘
      fun p : Nat × StoreUnit => (⟨p.2, sim q.embedding p.2.embedding, p.1⟩ : Scored)) =
      StoreUnit.id ∘ Prod.snd := rfl
  rw [this, ← List.map_map, List.enum_map_snd]

lemma scoredUnits_length (sim : List ℚ → List ℚ → ℚ) (q : Query)
    (s : DocumentStore) : (scoredUnits sim q s).length = s.units.length := by
  simp [scoredUnits]

/-- C3: on a well-formed store with `1 ≤ k ≤` store size, `retrieve` succeeds
and returns exactly `k` results, sorted by non-increasing similarity score,
with equal-score ties broken by insertion order (the earlier-ingested unit,
i.e. the one with the smaller insertion position, comes first) and with no
duplicate unit ids. -/
theorem retrieve_topk (s : DocumentStore) (hwf : s.WF)
    (sim : List ℚ → List ℚ → ℚ) (q : Query) (k : Nat)
    (hk1 : 1 ≤ k) (hkn : k ≤ s.units.length) :
    ∃ res, s.retrieve sim q k = .ok res ∧
      res.length = k ∧
      res.Pairwise (fun a b => b.score ≤ a.score) ∧
      res.Pairwise (fun a b => a.score = b.score → a.pos < b.pos) ∧
      (res.map (fun x => x.unit.id)).Nodup := by
  have hne : s.units ≠ [] := by
    intro h
    rw [h] at hkn
    simp at hkn
    omega
  set l := scoredUnits sim q s with hl
  set srt := List.insertionSort retrievePrecedes l with hsrt
  have hperm : List.Perm srt l := List.perm_insertionSort _ l
  have hsublist : List.Sublist (srt.take k) srt := List.take_sublist k srt
  refine ⟨srt.take k, ?_, ?_, ?_, ?_, ?_⟩
  · unfold DocumentStore.retrieve
    rw [if_neg hne]
  · rw [List.length_take, hperm.length_eq, scoredUnits_length]
    omega
  · have hsorted : srt.Pairwise retrievePrecedes :=
      List.sorted_insertionSort retrievePrecedes l
    refine (hsorted.sublist hsublist).imp ?_
    intro a b hab
    rcases hab with hab | ⟨hab, _⟩
    · exact le_of_lt hab
    · exact le_of_eq hab.symm
  · have hsorted : srt.Pairwise retrievePrecedes :=
      List.sorted_insertionSort retrievePrecedes l
    have hposnodup : ((srt.take k).map Scored.pos).Nodup := by
      have h1 : (l.map Scored.pos).Nodup := by
        rw [scoredUnits_map_pos]
        exact List.nodup_range _
      have h2 : (srt.map Scored.pos).Nodup :=
        ((hperm.map Scored.pos).nodup_iff).2 h1
      exact h2.sublist (hsublist.map Scored.pos)
    have hposne : (srt.take k).Pairwise (fun a b => a.pos ≠ b.pos) := by
      have := hposnodup
      unfold List.Nodup at this
      exact List.pairwise_map.1 this
    refine ((hsorted.sublist hsublist).and hposne).imp ?_
    rintro a b ⟨hr, hne'⟩ hscore
    rcases hr with hr | ⟨_, hp⟩
    · rw [hscore] at hr
      exact absurd hr (lt_irrefl _)
    · exact lt_of_le_of_ne hp hne'
  · have h1 : (l.map (fun x => x.unit.id)).Nodup := by
      rw [scoredUnits_map_id]
      exact hwf.1
    have h2 : (srt.map (fun x => x.unit.id)).Nodup :=
      ((hperm.map _).nodup_iff).2 h1
    exact h2.sublist (hsublist.map _)

/-- Witness for C3 at a concrete two-unit store with a constant similarity
function (so the tie-break clause is exercised). -/
theorem retrieve_topk_witness :
    (⟨[⟨0, "a", [(1 : ℚ)]⟩, ⟨1, "b", [(0 : ℚ)]⟩], 2⟩ : DocumentStore).WF ∧
    (1 : Nat) ≤ 2 ∧
    2 ≤ (⟨[⟨0, "a", [(1 : ℚ)]⟩, ⟨1, "b", [(0 : ℚ)]⟩], 2⟩ : DocumentStore).units.length ∧
    ∃ res, DocumentStore.retrieve
        ⟨[⟨0, "a", [(1 : ℚ)]⟩, ⟨1, "b", [(0 : ℚ)]⟩], 2⟩ (fun _ _ => 0) ⟨"q", []⟩ 2 =
        .ok res ∧
      res.length = 2 ∧
      res.Pairwise (fun a b => b.score ≤ a.score) ∧
      res.Pairwise (fun a b => a.score = b.score → a.pos < b.pos) ∧
      (res.map (fun x => x.unit.id)).Nodup :=
  ⟨by constructor <;> decide, by decide, by decide,
    retrieve_topk _ (by constructor <;> decide) _ _ _ (by decide) (by decide)⟩

/-- C4: `retrieve` on a store with zero units always fails with
`EmptyStoreError`, for every query and every `k`. -/
theorem retrieve_empty_store (s : DocumentStore) (h : s.units = [])
    (sim : List ℚ → List ℚ → ℚ) (q : Query) (k : Nat) :
    s.retrieve sim q k = .error .emptyStore := by
  unfold DocumentStore.retrieve
  rw [if_pos h]

/-- Witness for C4 at the concrete empty store. -/
theorem retrieve_empty_store_witness :
    (⟨[], 0⟩ : DocumentStore).units = [] ∧
    DocumentStore.retrieve ⟨[], 0⟩ (fun _ _ => 0) ⟨"q", []⟩ 5 = .error .emptyStore :=
  ⟨rfl, retrieve_empty_store ⟨[], 0⟩ rfl _ _ _⟩

/-- Generation failure causes (§4.3): provider error or timeout, or empty
output. -/
inductive GenErr
  | providerFailure
  | emptyOutput
deriving DecidableEq

/-- A generated response (spec §3): text plus the ids of the source units used. -/
structure Response where
  text : String
  source_units : List Nat
deriving DecidableEq

/-- Deterministic prompt construction (§4.3): context text in retrieval order,
then the system instructions, then the query text. -/
def buildPrompt (q : Query) (ctx : List Scored) (instr : List String) : String :=
  String.intercalate "\n" (ctx.map (fun h => h.unit.text)) ++ "\n" ++
    String.intercalate "\n" instr ++ "\n" ++ q.text

/-- Modelled from the spec: `generate` (§4.3); absent from src/, where the
notebooks delegate it to external query engines.  Concatenates context
deterministically into a prompt, delegates to the external language-model
provider (`none` models provider error or timeout), and fails with
`GenerationFailure` on provider error or empty output. -/
def generate (provider : String → Option String) (q : Query) (ctx : List Scored)
    (instr : List String) : Except GenErr Response :=
  match provider (buildPrompt q ctx instr) with
  | none => .error .providerFailure
  | some t =>
    if t = "" then .error .emptyOutput
    else .ok ⟨t, ctx.map (fun h => h.unit.id)⟩

/-- The evaluator variants (spec §2, §3 `kind` tag). -/
inductive EvalKind
  | hallucination
  | guideline
  | completeness
  | conciseness
  | toxicity
  | contextRelevance
deriving DecidableEq

/-- The structured verdict an external scoring service returns for one call
(score, flag, free-text explanation). -/
structure ProviderPayload where
  score : ℚ
  flag : Bool
  explanation : String
deriving DecidableEq

/-- The payload an evaluator sends to its scoring service: query text, response
text, context, and the variant-specific configuration. -/
structure EvalPayload where
  queryText : String
  responseText : String
  contextText : String
  extra : String
deriving DecidableEq

/-- Evaluator-local failure causes (§4.4): empty response text
(`InvalidInputError`), or provider timeout / malformed payload
(`EvaluationUnavailable`). -/
inductive EvalErr
  | invalidInput
  | unavailable
deriving DecidableEq

/-- An evaluation verdict (spec §3): the `kind` tag plus the variant payload
(score in `[0,1]`, flag, explanation). -/
structure EvaluationVerdict where
  kind : EvalKind
  score : ℚ
  flag : Bool
  explanation : String
deriving DecidableEq

/-- Modelled from the spec: an `Evaluator` (§4.4); absent from src/, where the
notebooks instantiate external `aimon_llamaindex.evaluators` classes.  A
variant tag, the stateless external scoring service it delegates to (`none`
models a timeout), and its variant-specific configuration. -/
structure Evaluator where
  kind : EvalKind
  provider : EvalPayload → Option ProviderPayload
  extra : String

/-- The payload one evaluator sends for one `(query, response, context)`
invocation. -/
def payloadOf (ev : Evaluator) (q : Query) (r : Response) (c : String) :
    EvalPayload :=
  ⟨q.text, r.text, c, ev.extra⟩

/-- Map a provider answer into the common verdict envelope: a missing answer is
a timeout, an out-of-bound score is a malformed payload; both yield
`EvaluationUnavailable`. -/
def mkVerdict (k : EvalKind) :
    Option ProviderPayload → Except EvalErr EvaluationVerdict
  | none => .error .unavailable
  | some p =>
    if 0 ≤ p.score ∧ p.score ≤ 1 then .ok ⟨k, p.score, p.flag, p.explanation⟩
    else .error .unavailable

/-- Modelled from the spec: the common `evaluate` contract (§4.4)
`evaluate(query, response, context, extra) -> EvaluationVerdict`; validates
that the response text is non-empty, then delegates to the scoring service. -/
def Evaluator.evaluate (ev : Evaluator) (q : Query) (r : Response) (c : String) :
    Except EvalErr EvaluationVerdict :=
  if r.text = "" then .error .invalidInput
  else mkVerdict ev.kind (ev.provider (payloadOf ev q r c))

/-- C5: every verdict an evaluator produces has its score within the documented
bound `[0, 1]`, and its `kind` tag equals the variant of the evaluator that
produced it. -/
theorem verdict_bounds_and_kind (ev : Evaluator) (q : Query) (r : Response)
    (c : String) (v : EvaluationVerdict) (h : ev.evaluate q r c = .ok v) :
    v.kind = ev.kind ∧ 0 ≤ v.score ∧ v.score ≤ 1 := by
  unfold Evaluator.evaluate at h
  split at h
  · exact Except.noConfusion h
  · unfold mkVerdict at h
    split at h
    · exact Except.noConfusion h
    · split at h
      · next hb =>
        injection h with h2
        subst h2
        exact ⟨rfl, hb.1, hb.2⟩
      · exact Except.noConfusion h

/-- Witness for C5 at a concrete evaluator with a stub scoring service. -/
theorem verdict_bounds_and_kind_witness :
    (Evaluator.mk .hallucination (fun _ => some ⟨1, false, "ok"⟩) "").evaluate
        ⟨"q", []⟩ ⟨"resp", []⟩ "ctx" = .ok ⟨.hallucination, 1, false, "ok"⟩ ∧
    ((⟨.hallucination, 1, false, "ok"⟩ : EvaluationVerdict).kind = .hallucination ∧
      0 ≤ (⟨.hallucination, 1, false, "ok"⟩ : EvaluationVerdict).score ∧
      (⟨.hallucination, 1, false, "ok"⟩ : EvaluationVerdict).score ≤ 1) :=
  ⟨rfl, verdict_bounds_and_kind
    (Evaluator.mk .hallucination (fun _ => some ⟨1, false, "ok"⟩) "")
    ⟨"q", []⟩ ⟨"resp", []⟩ "ctx" ⟨.hallucination, 1, false, "ok"⟩ rfl⟩

/-- C6: for every evaluator variant, `evaluate` is an operation of the query,
the response, the retrieved-or-task context and the variant configuration; in
particular the context argument is a genuine input — there is a scoring
service and fixed query/response for which changing only the context changes
the verdict. -/
theorem evaluate_context_input :
    ∀ k : EvalKind, ∃ (p : EvalPayload → Option ProviderPayload) (extra : String)
      (q : Query) (r : Response) (c1 c2 : String),
      (Evaluator.mk k p extra).evaluate q r c1 ≠
        (Evaluator.mk k p extra).evaluate q r c2 := by
  intro k
  refine ⟨fun pl => if pl.contextText = "a" then some ⟨1, false, ""⟩ else none, "",
    ⟨"q", []⟩, ⟨"resp", []⟩, "a", "b", ?_⟩
  intro h
  have h1 : (Evaluator.mk k (fun pl =>
      if pl.contextText = "a" then some ⟨1, false, ""⟩ else none) "").evaluate
      ⟨"q", []⟩ ⟨"resp", []⟩ "a" = .ok ⟨k, 1, false, ""⟩ := rfl
  have h2 : (Evaluator.mk k (fun pl =>
      if pl.contextText = "a" then some ⟨1, false, ""⟩ else none) "").evaluate
      ⟨"q", []⟩ ⟨"resp", []⟩ "b" = .error .unavailable := rfl
  rw [h1, h2] at h
  exact Except.noConfusion h

/-- A verdict slot in the aggregated pipeline result (§4.5): either the
evaluator's verdict or the `EvaluationUnavailable` marker. -/
inductive VerdictOrUnavailable
  | available (v : EvaluationVerdict)
  | unavailable
deriving DecidableEq

/-- Degrade an evaluator outcome to its pipeline slot: any evaluator failure is
recorded as `EvaluationUnavailable` (§7). -/
def toEntry : Except EvalErr EvaluationVerdict → VerdictOrUnavailable
  | .ok v => .available v
  | .error _ => .unavailable

/-- The mutable state of one pipeline pass: the immutable inputs of the
evaluation phase plus the verdict accumulator. -/
structure PipelineState where
  query : Query
  response : Response
  context : String
  verdicts : List (EvalKind × VerdictOrUnavailable)

/-- Modelled from the spec: running one evaluator inside the pipeline (§4.4,
§4.5) appends its entry to the verdict accumulator; the query, response and
context are read-only. -/
def evaluateStep (ev : Evaluator) (st : PipelineState) : PipelineState :=
  { st with verdicts := st.verdicts ++
      [(ev.kind, toEntry (ev.evaluate st.query st.response st.context))] }

/-- C7: an `evaluate` invocation never mutates its inputs: the query, response
and context components of the state are unchanged (while the verdict
accumulator does grow, so the step is not a no-op). -/
theorem evaluate_preserves_inputs (ev : Evaluator) (st : PipelineState) :
    (evaluateStep ev st).query = st.query ∧
    (evaluateStep ev st).response = st.response ∧
    (evaluateStep ev st).context = st.context ∧
    (evaluateStep ev st).verdicts.length = st.verdicts.length + 1 := by
  refine ⟨rfl, rfl, rfl, ?_⟩
  simp [evaluateStep]

/-- Modelled from the spec: the evaluation phase of a pipeline pass (§4.5):
each requested evaluator runs independently over the shared immutable inputs,
and its outcome is aggregated by kind, degraded to `EvaluationUnavailable` on
failure. -/
def runEvaluators (evs : List Evaluator) (q : Query) (r : Response)
    (c : String) : List (EvalKind × VerdictOrUnavailable) :=
  evs.map (fun ev => (ev.kind, toEntry (ev.evaluate q r c)))

lemma runEvaluators_getElem (evs : List Evaluator) (q : Query) (r : Response)
    (c : String) (i : Nat) (ev : Evaluator) (hev : evs[i]? = some ev) :
    (runEvaluators evs q r c)[i]? =
      some (ev.kind, toEntry (ev.evaluate q r c)) := by
  unfold runEvaluators
  rw [List.getElem?_map, hev]
  rfl

/-- C2: each evaluator's slot in the aggregated result is determined by that
evaluator alone — a provider timeout (or malformed payload) yields
`EvaluationUnavailable` for exactly that slot, while every sibling whose
provider answers with an in-bound payload still gets its verdict; no evaluator
failure aborts the pass. -/
theorem evaluator_failure_isolated (evs : List Evaluator) (q : Query)
    (r : Response) (c : String) (i : Nat) (ev : Evaluator)
    (hev : evs[i]? = some ev) :
    (runEvaluators evs q r c).length = evs.length ∧
    (ev.provider (payloadOf ev q r c) = none →
      (runEvaluators evs q r c)[i]? = some (ev.kind, .unavailable)) ∧
    (∀ p, ev.provider (payloadOf ev q r c) = some p →
      ¬(0 ≤ p.score ∧ p.score ≤ 1) →
      (runEvaluators evs q r c)[i]? = some (ev.kind, .unavailable)) ∧
    (∀ p, ev.provider (payloadOf ev q r c) = some p → r.text ≠ "" →
      0 ≤ p.score → p.score ≤ 1 →
      (runEvaluators evs q r c)[i]? = some (ev.kind,
        .available ⟨ev.kind, p.score, p.flag, p.explanation⟩)) := by
  refine ⟨by simp [runEvaluators], ?_, ?_, ?_⟩
  · intro hnone
    rw [runEvaluators_getElem evs q r c i ev hev]
    unfold Evaluator.evaluate
    by_cases hr : r.text = ""
    · rw [if_pos hr]
      rfl
    · rw [if_neg hr, hnone]
      rfl
  · intro p hp hbad
    rw [runEvaluators_getElem evs q r c i ev hev]
    unfold Evaluator.evaluate
    by_cases hr : r.text = ""
    · rw [if_pos hr]
      rfl
    · rw [if_neg hr, hp]
      simp only [mkVerdict]
      rw [if_neg hbad]
      rfl
  · intro p hp hr h0 h1
    rw [runEvaluators_getElem evs q r c i ev hev]
    unfold Evaluator.evaluate
    rw [if_neg hr, hp]
    simp only [mkVerdict]
    rw [if_pos (⟨h0, h1⟩ : 0 ≤ p.score ∧ p.score ≤ 1)]
    rfl

/-- Witness for C2: a two-evaluator pass where the first provider times out and
the second answers; the first slot is unavailable, the second keeps its
verdict. -/
theorem evaluator_failure_isolated_witness :
    (runEvaluators
        [⟨.hallucination, fun _ => none, ""⟩,
         ⟨.guideline, fun _ => some ⟨1, false, "g"⟩, ""⟩]
        ⟨"q", []⟩ ⟨"resp", []⟩ "c")[0]? = some (.hallucination, .unavailable) ∧
    (runEvaluators
        [⟨.hallucination, fun _ => none, ""⟩,
         ⟨.guideline, fun _ => some ⟨1, false, "g"⟩, ""⟩]
        ⟨"q", []⟩ ⟨"resp", []⟩ "c")[1]? =
      some (.guideline, .available ⟨.guideline, 1, false, "g"⟩) :=
  ⟨(evaluator_failure_isolated _ ⟨"q", []⟩ ⟨"resp", []⟩ "c" 0 _ rfl).2.1 rfl,
   (evaluator_failure_isolated _ ⟨"q", []⟩ ⟨"resp", []⟩ "c" 1 _ rfl).2.2.2
     ⟨1, false, "g"⟩ rfl (by decide) (by decide) (by decide)⟩

/-- The fatal error kinds of a pipeline run (§7): `EmptyStoreError` from the
retriever and `GenerationFailure` from the generator; individual evaluator
failures are never fatal. -/
inductive FatalErr
  | emptyStore
  | generationFailure
deriving DecidableEq

/-- A completed pipeline run (§4.5): the response and the verdict map, one
entry per requested evaluator. -/
structure RunResult where
  response : Response
  verdicts : List (EvalKind × VerdictOrUnavailable)

/-- Modelled from the spec: `EvaluationPipeline.run` (§4.5); absent from src/,
where the notebooks drive external query engines and evaluators step by step.
Retrieve, then generate, then run every requested evaluator; retrieval and
generation failures are fatal, evaluator failures merely degrade their slot. -/
def EvaluationPipeline.run (store : DocumentStore)
    (sim : List ℚ → List ℚ → ℚ) (genProvider : String → Option String)
    (q : Query) (k : Nat) (instr : List String) (evs : List Evaluator) :
    Except FatalErr RunResult :=
  match store.retrieve sim q k with
  | .error _ => .error .emptyStore
  | .ok ctx =>
    match generate genProvider q ctx instr with
    | .error _ => .error .generationFailure
    | .ok resp =>
      .ok ⟨resp, runEvaluators evs q resp
        (String.intercalate "\n" (ctx.map (fun h => h.unit.text)))⟩

/-- C1: against a stub generation provider that always returns the fixed
non-empty text `t`, a pipeline run either fails outright with a fatal kind
(here: only the empty store) or yields a complete result whose response text
is exactly `t` and whose verdict map has exactly one slot per requested
evaluator, in order — never a silent partial response. -/
theorem run_complete_or_fatal (store : DocumentStore)
    (sim : List ℚ → List ℚ → ℚ) (t : String) (q : Query) (k : Nat)
    (instr : List String) (evs : List Evaluator) (ht : t ≠ "") :
    (store.units = [] ∧
      EvaluationPipeline.run store sim (fun _ => some t) q k instr evs =
        .error .emptyStore) ∨
    (∃ res, EvaluationPipeline.run store sim (fun _ => some t) q k instr evs =
        .ok res ∧
      res.response.text = t ∧
      res.verdicts.map Prod.fst = evs.map Evaluator.kind) := by
  by_cases h : store.units = []
  · left
    refine ⟨h, ?_⟩
    unfold EvaluationPipeline.run DocumentStore.retrieve
    rw [if_pos h]
  · right
    unfold EvaluationPipeline.run DocumentStore.retrieve generate
    rw [if_neg h]
    simp only []
    rw [if_neg ht]
    refine ⟨_, rfl, rfl, ?_⟩
    unfold runEvaluators
    rw [List.map_map]
    rfl

/-- Witness for C1 at a concrete store, stub text and evaluator list. -/
theorem run_complete_or_fatal_witness :
    ("answer" : String) ≠ "" ∧
    (((⟨[⟨0, "doc", [(1 : ℚ)]⟩], 1⟩ : DocumentStore).units = [] ∧
      EvaluationPipeline.run ⟨[⟨0, "doc", [(1 : ℚ)]⟩], 1⟩ (fun _ _ => 0)
        (fun _ => some "answer") ⟨"q", []⟩ 1 []
        [⟨.toxicity, fun _ => none, ""⟩] = .error .emptyStore) ∨
    (∃ res, EvaluationPipeline.run ⟨[⟨0, "doc", [(1 : ℚ)]⟩], 1⟩ (fun _ _ => 0)
        (fun _ => some "answer") ⟨"q", []⟩ 1 []
        [⟨.toxicity, fun _ => none, ""⟩] = .ok res ∧
      res.response.text = "answer" ∧
      res.verdicts.map Prod.fst =
        [Evaluator.mk .toxicity (fun _ => none) ""].map Evaluator.kind)) :=
  ⟨by decide, run_complete_or_fatal _ _ _ _ _ _ _ (by decide)⟩

/-- An evaluator whose scoring service may carry hidden state of type `σ`
(modelling live-model non-determinism); a deterministic stub is one whose
answer does not depend on that state. -/
structure StatefulEvaluator (σ : Type) where
  kind : EvalKind
  extra : String
  step : EvalPayload → σ → Option ProviderPayload × σ

/-- Modelled from the spec: `evaluate` against a possibly stateful scoring
service (§8 determinism property); same validation and envelope as
`Evaluator.evaluate`, threading the provider state. -/
def StatefulEvaluator.evaluate {σ : Type} (ev : StatefulEvaluator σ)
    (q : Query) (r : Response) (c : String) (s : σ) :
    Except EvalErr EvaluationVerdict × σ :=
  if r.text = "" then (.error .invalidInput, s)
  else
    (mkVerdict ev.kind (ev.step ⟨q.text, r.text, c, ev.extra⟩ s).1,
      (ev.step ⟨q.text, r.text, c, ev.extra⟩ s).2)

/-- A deterministic stub provider: its answer is independent of its hidden
state. -/
def DeterministicStub {σ : Type} (ev : StatefulEvaluator σ) : Prop :=
  ∀ p s1 s2, (ev.step p s1).1 = (ev.step p s2).1

/-- C8: running the same evaluator twice on the same
`(query, response, context)` against a deterministic stub provider — the
second run starting from the provider state the first run left behind — yields
identical verdict payloads. -/
theorem evaluate_deterministic {σ : Type} (ev : StatefulEvaluator σ)
    (hdet : DeterministicStub ev) (q : Query) (r : Response) (c : String)
    (s0 : σ) :
    (ev.evaluate q r c ((ev.evaluate q r c s0).2)).1 =
      (ev.evaluate q r c s0).1 := by
  unfold StatefulEvaluator.evaluate
  by_cases h : r.text = ""
  · rw [if_pos h]
    simp only []
    rw [if_pos h]
  · rw [if_neg h]
    simp only []
    rw [if_neg h]
    exact congrArg (mkVerdict ev.kind) (hdet _ _ _)

/-- Witness for C8 at a concrete stateful-but-deterministic stub (the state
counts calls; the answer ignores it). -/
theorem evaluate_deterministic_witness :
    DeterministicStub
      (⟨.conciseness, "", fun _ s => (some ⟨0, true, "w"⟩, s + 1)⟩ :
        StatefulEvaluator Nat) ∧
    ((⟨.conciseness, "", fun _ s => (some ⟨0, true, "w"⟩, s + 1)⟩ :
        StatefulEvaluator Nat).evaluate ⟨"q", []⟩ ⟨"resp", []⟩ "c"
        (((⟨.conciseness, "", fun _ s => (some ⟨0, true, "w"⟩, s + 1)⟩ :
          StatefulEvaluator Nat).evaluate ⟨"q", []⟩ ⟨"resp", []⟩ "c" 0).2)).1 =
      ((⟨.conciseness, "", fun _ s => (some ⟨0, true, "w"⟩, s + 1)⟩ :
        StatefulEvaluator Nat).evaluate ⟨"q", []⟩ ⟨"resp", []⟩ "c" 0).1 :=
  ⟨fun _ _ _ => rfl,
   evaluate_deterministic _ (fun _ _ _ => rfl) ⟨"q", []⟩ ⟨"resp", []⟩ "c" 0⟩

/-- A `llama_index.core.Document` as the notebook uses it: a text payload. -/
structure Document where
  text : String
deriving DecidableEq

/-- Embedding of `extract_and_create_documents` (AIMon.ipynb): iterate over
the transcripts; for each, try to construct a `Document` (the constructor is
the external `llama_index` one, a parameter here, which may raise); on success
append the document, on an exception print a failure message and continue with
the next transcript.  Returns the collected documents and the printed
messages. -/
def extract_and_create_documents (mk : String → Except String Document) :
    List String → List Document × List String
  | [] => ([], [])
  | t :: ts =>
    let r := extract_and_create_documents mk ts
    match mk t with
    | .ok d => (d :: r.1, r.2)
    | .error _ => (r.1, "Failed to create document" :: r.2)

/-- C9: `extract_and_create_documents` returns documents for exactly the
transcripts whose construction succeeds, in input order; each failure is
caught, logged as a failure message, and does not abort the remaining
transcripts. -/
theorem extract_documents_exact (mk : String → Except String Document)
    (ts : List String) :
    (extract_and_create_documents mk ts).1 =
      ts.filterMap (fun t => (mk t).toOption) ∧
    (extract_and_create_documents mk ts).2.length =
      (ts.filter (fun t => ((mk t).toOption).isNone)).length ∧
    ∀ m ∈ (extract_and_create_documents mk ts).2,
      m = "Failed to create document" := by
  induction ts with
  | nil =>
    refine ⟨rfl, rfl, ?_⟩
    intro m hm
    simp [extract_and_create_documents] at hm
  | cons t ts ih =>
    obtain ⟨ih1, ih2, ih3⟩ := ih
    cases h : mk t with
    | ok d =>
      refine ⟨?_, ?_, ?_⟩
      · simp [extract_and_create_documents, h, Except.toOption, ih1]
      · simp [extract_and_create_documents, h, Except.toOption, ih2]
      · intro m hm
        simp only [extract_and_create_documents, h] at hm
        exact ih3 m hm
    | error e =>
      refine ⟨?_, ?_, ?_⟩
      · simp [extract_and_create_documents, h, Except.toOption, ih1]
      · simp [extract_and_create_documents, h, Except.toOption, ih2]
      · intro m hm
        simp only [extract_and_create_documents, h, List.mem_cons] at hm
        rcases hm with hm | hm
        · exact hm
        · exact ih3 m hm

/-- The LLM object the notebook constructs
(`OpenAI(model=..., temperature=..., system_prompt=...)`, AIMon.ipynb). -/
structure LLMConfig where
  model : String
  temperature : ℚ
  system_prompt : String
deriving DecidableEq

/-- The single-quote character, as used by Python `str` of a list of strings. -/
def singleQuote : String := String.singleton (Char.ofNat 39)

/-- Python `str` of a list of strings, as interpolated by the notebook's
f-string: single-quoted items, comma-separated, in square brackets. -/
def pyListStr (xs : List String) : String :=
  "[" ++ String.intercalate ", "
    (xs.map (fun s => singleQuote ++ s ++ singleQuote)) ++ "]"

/-- Embedding of the notebook line
`llm.system_prompt += f"Please comply to the following instructions {user_instructions}."`
(AIMon.ipynb): an in-place update of the LLM object's system prompt; every
other configuration field is untouched. -/
def appendUserInstructions (llm : LLMConfig) (instr : List String) : LLMConfig :=
  { llm with system_prompt := llm.system_prompt ++
      "Please comply to the following instructions " ++ pyListStr instr ++ "." }

/-- The notebook session state once the LLM is configured: the LLM object and
the texts generated so far. -/
structure NotebookState where
  llm : LLMConfig
  history : List String

/-- Modelled from the spec: one generation call (`get_response` of the
external `aimon_llamaindex`; §4.3): the response is produced from the LLM
object's current system prompt and the query, and the call does not
reconfigure the LLM. -/
def get_response_call (gen : String → String → String) (queryText : String)
    (st : NotebookState) : NotebookState :=
  { st with history := st.history ++ [gen st.llm.system_prompt queryText] }

/-- A sequence of subsequent generation calls, in order. -/
def runGenerationCalls (gen : String → String → String) :
    List String → NotebookState → NotebookState
  | [], st => st
  | qt :: qs, st => runGenerationCalls gen qs (get_response_call gen qt st)

lemma runGenerationCalls_spec (gen : String → String → String)
    (qs : List String) (st : NotebookState) :
    runGenerationCalls gen qs st =
      ⟨st.llm, st.history ++ qs.map (fun qt => gen st.llm.system_prompt qt)⟩ := by
  induction qs generalizing st with
  | nil => simp [runGenerationCalls]
  | cons qt qs ih =>
    simp [runGenerationCalls, ih, get_response_call]

/-- C10: appending the user instructions updates the LLM object's
`system_prompt` in place to the previous prompt followed by the formatted
instruction string, changes neither `model` nor `temperature`, and the update
persists: every subsequent generation call sees the appended prompt and leaves
the LLM object as it is. -/
theorem system_prompt_update_persists (llm : LLMConfig) (instr : List String)
    (gen : String → String → String) (qs : List String) (h0 : List String) :
    (appendUserInstructions llm instr).system_prompt =
      llm.system_prompt ++ "Please comply to the following instructions " ++
        pyListStr instr ++ "." ∧
    (appendUserInstructions llm instr).model = llm.model ∧
    (appendUserInstructions llm instr).temperature = llm.temperature ∧
    (runGenerationCalls gen qs ⟨appendUserInstructions llm instr, h0⟩).llm =
      appendUserInstructions llm instr ∧
    (runGenerationCalls gen qs ⟨appendUserInstructions llm instr, h0⟩).history =
      h0 ++ qs.map
        (fun qt => gen (appendUserInstructions llm instr).system_prompt qt) := by
  refine ⟨rfl, rfl, rfl, ?_, ?_⟩
  · rw [runGenerationCalls_spec]
  · rw [runGenerationCalls_spec]

end Spec2Proof
